import Mathlib

/-!
Verification of the interpolation task of `riffusion/streamlit/tasks/interpolation.py`.

The file embeds, as Lean definitions, the alpha-schedule computation, the
orchestration function `prepare_interpolation`, the audio concatenation done in
both `render` and `prepare_interpolation`, and (modelled from the spec, since the
Streamlit cache decorator and the inference pipeline live outside the provided
sources) the memoization contract of the cached `run_interpolation`.

Numeric model: Python floats are modelled exactly — the linear space as rational
numbers, and the power-warped schedule over the reals, with `x ** p` as the real
power `Real.rpow` on the non-negative base `|s|` (matching numpy on the inputs the
theorems touch, in particular `0 ** 0 = 1` and `0 ** p = 0` for `p > 0`).
-/

namespace Riffusion

/-- `np.linspace(0, 1, n)` with both endpoints included: `[i / (n-1) for i in range(n)]`.
For `n = 1` numpy returns `[0.0]`, which the rational convention `0 / 0 = 0` reproduces;
for `n = 0` the list is empty. -/
def linspace01 (n : ℕ) : List ℚ :=
  (List.range n).map (fun i : ℕ => (i : ℚ) / ((n : ℚ) - 1))

/-- The power warp applied to one linspace value `a` (source lines 104-105 and 389-390):
`s = a*2 - 1`, then `(|s| ** p * np.sign(s) + 1) / 2`. -/
noncomputable def powerScale (p : ℝ) (a : ℝ) : ℝ :=
  (|a * 2 - 1| ^ p * Real.sign (a * 2 - 1) + 1) / 2

/-- The alpha schedule as computed in `render` (source lines 101-106):
`alphas = np.linspace(0, 1, num_interpolation_steps)` followed by the power warp. -/
noncomputable def render_alpha_schedule (n : ℕ) (p : ℝ) : List ℝ :=
  (linspace01 n).map (fun a : ℚ => powerScale p (a : ℝ))

/-- The alpha schedule as computed in `prepare_interpolation` (source lines 386-391):
textually the same computation as in `render`. -/
noncomputable def prepare_alpha_schedule (n : ℕ) (p : ℝ) : List ℝ :=
  (linspace01 n).map (fun a : ℚ => powerScale p (a : ℝ))

/-- The plain linear space, cast to the reals, for comparison with the warped schedule. -/
def linspace01R (n : ℕ) : List ℝ :=
  (linspace01 n).map (fun a : ℚ => (a : ℝ))

/-- Modelled from the spec: `riffusion.datatypes.PromptInput` is outside the provided
sources; the fields follow the spec's PromptEndpoint (§3) and the construction sites in
`render` and `create_prompt_input`. -/
structure PromptInput where
  prompt : String
  negative_prompt : String
  seed : Int
  denoising : ℚ
  guidance : ℚ
deriving DecidableEq, Repr

/-- Modelled from the spec: `riffusion.datatypes.InferenceInput` is outside the provided
sources; the fields follow the spec's InterpolationRequest (§3) and the construction sites
at source lines 149-155 and 397-403. `alpha` is real-valued (output of the power warp). -/
structure InferenceInput where
  alpha : ℝ
  num_inference_steps : ℕ
  seed_image_id : String
  start : PromptInput
  «end» : PromptInput

/-- The Python runtime value held in an image variable: either a raw `io.BytesIO`
buffer (which has no `.convert` attribute) or a decoded `PIL.Image` (which supports
`.convert("RGB")`). The tag records the origin of the value. -/
inductive ImgVal where
  | bytesBuf (tag : String)
  | pilImage (tag : String)
deriving DecidableEq, Repr

/-- The dynamic attribute call `x.convert("RGB")`: succeeds on a PIL image, raises
`AttributeError` (modelled as `none`) on a raw `io.BytesIO` buffer. -/
def pyConvertRGB : ImgVal → Option ImgVal
  | .pilImage t => some (.pilImage t)
  | .bytesBuf _ => none

/-- A decoded audio segment, as its list of samples. Durations are sample counts
(the codec's fixed frame rate is an external constant and cancels in all claims). -/
abbrev AudioSeg : Type := List ℤ

/-- Duration of a segment, in samples. -/
def segDuration (s : AudioSeg) : ℕ := s.length

/-- `pydub.AudioSegment.append(other, crossfade=0)`: hard concatenation of the sample
data, no blending at the boundary. -/
def segAppend (a b : AudioSeg) : AudioSeg := a ++ b

/-- `pydub.AudioSegment.from_file(audio_bytes)`: the codec is an external collaborator,
modelled as the identity on the sample content (the spec's "negligible codec rounding"
is exact in the model). -/
def audioSegment_from_file (b : AudioSeg) : AudioSeg := b

/-- An exported audio byte buffer: container format, sample content, and the read
position of the `io.BytesIO` object (`seek(0)` sets it to 0). -/
structure ByteBuf where
  format : String
  samples : AudioSeg
  pos : ℕ
deriving DecidableEq, Repr

/-- The exceptions `prepare_interpolation` can raise: the two `ValueError`s of lines
369-374, the `AttributeError` from calling `.convert` on a raw buffer at line 376, and
the `IndexError` from `audio_segments[0]` at line 422 when the schedule is empty. -/
inductive PrepError where
  | missingPrompt
  | missingSeedImage
  | attrError
  | indexError
deriving DecidableEq, Repr

/-- The external cached inference engine `run_interpolation(inputs, init_image, device,
extension) -> (image, audio_bytes)`; its body (checkpoint loading, diffusion pipeline,
spectrogram-to-audio reconstruction) is an external collaborator, so the orchestrator is
parametrised over it. -/
abbrev Engine : Type := InferenceInput → ImgVal → String → String → ImgVal × AudioSeg

/-- Audio concatenation, export and seek as written in `render` (source lines 180-187):
decode every per-step buffer, take `audio_segments[0]` (IndexError on an empty list),
fold `append(segment, crossfade=0)` over the rest, export to the extension's format and
seek to position 0. -/
def render_concat_export (extension : String) (audio_bytes_list : List AudioSeg) :
    Except PrepError ByteBuf :=
  let audio_segments := audio_bytes_list.map audioSegment_from_file
  match audio_segments with
  | [] => .error .indexError
  | s :: rest =>
    let concat_segment := rest.foldl (fun acc seg => segAppend acc seg) s
    .ok { format := extension, samples := concat_segment, pos := 0 }

/-- Audio concatenation, export and seek as written in `prepare_interpolation` (source
lines 421-428): textually the same computation as in `render`. -/
def prepare_concat_export (extension : String) (audio_bytes_list : List AudioSeg) :
    Except PrepError ByteBuf :=
  let audio_segments := audio_bytes_list.map audioSegment_from_file
  match audio_segments with
  | [] => .error .indexError
  | s :: rest =>
    let concat_segment := rest.foldl (fun acc seg => segAppend acc seg) s
    .ok { format := extension, samples := concat_segment, pos := 0 }

/-- Seed-image resolution of `prepare_interpolation` (source lines 372-384): for
"custom", a missing file is a `ValueError` and a present file gets `.convert("RGB")`
called on it directly (no `Image.open` — the decode call is commented out at line 375);
for a named image, `Image.open(seed_images/{name}.png).convert("RGB")` loads the asset
(external file system, modelled as the named PIL image). -/
def resolve_init_image (init_image_name : String) (init_image_file : Option ImgVal) :
    Except PrepError ImgVal :=
  if init_image_name = "custom" then
    match init_image_file with
    | none => .error .missingSeedImage
    | some f =>
      match pyConvertRGB f with
      | none => .error .attrError
      | some img => .ok img
  else
    .ok (.pilImage init_image_name)

/-- The orchestrator `prepare_interpolation` (source lines 329-430). Python falsiness:
`not prompt_a` is true exactly when the optional argument is `None` (a `PromptInput`
instance defines no `__bool__`/`__len__`, hence is always truthy), and likewise for
`init_image_file`. The device is chosen from CUDA availability (line 366). The result
pairs the list of per-step `InferenceInput` requests (the engine is called once per
request, in schedule order) with the final exported audio buffer. -/
noncomputable def prepare_interpolation (engine : Engine) (cudaAvailable : Bool)
    (extension : String) (num_interpolation_steps : ℕ) (num_inference_steps : ℕ)
    (guidance : ℚ) (init_image_name : String) (init_image_file : Option ImgVal)
    (alpha_power : ℝ) (show_individual_outputs : Bool) (show_images : Bool)
    (prompt_a : Option PromptInput) (prompt_b : Option PromptInput) :
    Except PrepError (List InferenceInput × ByteBuf) :=
  let device := if cudaAvailable then "cuda" else "cpu"
  match prompt_a, prompt_b with
  | some pa, some pb =>
    match resolve_init_image init_image_name init_image_file with
    | .error e => .error e
    | .ok init_image =>
      let alphas := prepare_alpha_schedule num_interpolation_steps alpha_power
      let inputs_list := alphas.map (fun alpha =>
        { alpha := alpha, num_inference_steps := num_inference_steps,
          seed_image_id := "og_beat", start := pa, «end» := pb : InferenceInput })
      let audio_bytes_list := inputs_list.map
        (fun inputs => (engine inputs init_image device extension).2)
      match prepare_concat_export extension audio_bytes_list with
      | .error e => .error e
      | .ok buf => .ok (inputs_list, buf)
  | _, _ => .error .missingPrompt

/-- State of a memoizing cache: the stored entries and how many times the underlying
computation ran. -/
structure MemoState (κ ρ : Type) where
  entries : List (κ × ρ)
  computeCount : ℕ

/-- Lookup in the cache's entry list. -/
def memoFind {κ ρ : Type} [DecidableEq κ] : List (κ × ρ) → κ → Option ρ
  | [], _ => none
  | (k0, v) :: rest, k => if k = k0 then some v else memoFind rest k

/-- Modelled from the spec: the `st.cache_data` decorator wrapping `run_interpolation`
(the Streamlit cache and the inference pipeline are outside the provided sources). The
key is the full argument tuple (request, seed image, checkpoint, device, output format);
on a hit the stored result is returned unchanged, on a miss the underlying computation
runs once and is stored. -/
def run_interpolation_memo {κ ρ : Type} [DecidableEq κ] (compute : κ → ρ)
    (s : MemoState κ ρ) (k : κ) : ρ × MemoState κ ρ :=
  match memoFind s.entries k with
  | some v => (v, s)
  | none => (compute k, ⟨(k, compute k) :: s.entries, s.computeCount + 1⟩)

/-- Fixture engine for concrete runs: ignores its arguments and returns a fixed image
and a two-sample audio buffer. -/
def engineW : Engine := fun _ _ _ _ => (ImgVal.pilImage "out", ([1, 2] : AudioSeg))

/-- Fixture prompt A. -/
def paW : PromptInput := ⟨"church bells", "", 42, 3/4, 7⟩

/-- Fixture prompt B. -/
def pbW : PromptInput := ⟨"jazz", "", 42, 3/4, 7⟩

/-- Fixture prompt with blank text. -/
def blankW : PromptInput := ⟨"", "", 42, 3/4, 7⟩

theorem sign_mul_abs (r : ℝ) : Real.sign r * |r| = r := by
  rcases lt_trichotomy r 0 with h | h | h
  · rw [Real.sign_of_neg h, abs_of_neg h]; ring
  · simp [h, Real.sign_zero]
  · rw [Real.sign_of_pos h, abs_of_pos h]; ring

theorem powerScale_one (a : ℝ) : powerScale 1 a = a := by
  unfold powerScale
  rw [Real.rpow_one, mul_comm, sign_mul_abs]
  ring

theorem prepare_alpha_schedule_one (n : ℕ) :
    prepare_alpha_schedule n 1 = linspace01R n := by
  unfold prepare_alpha_schedule linspace01R
  exact List.map_congr_left (fun a _ => powerScale_one _)

theorem linspace01_three : linspace01 3 = [0, 1/2, 1] := by
  unfold linspace01
  norm_num [List.range_succ]

theorem linspace01_length (n : ℕ) : (linspace01 n).length = n := by
  simp [linspace01]

theorem prepare_alpha_schedule_length (n : ℕ) (p : ℝ) :
    (prepare_alpha_schedule n p).length = n := by
  simp [prepare_alpha_schedule, linspace01]

theorem powerScale_zero (p : ℝ) : powerScale p 0 = 0 := by
  unfold powerScale
  rw [show (0:ℝ) * 2 - 1 = -1 by ring]
  rw [abs_neg, abs_one, Real.one_rpow, Real.sign_of_neg (by norm_num : (-1:ℝ) < 0)]
  ring

theorem powerScale_right_one (p : ℝ) : powerScale p 1 = 1 := by
  unfold powerScale
  rw [show (1:ℝ) * 2 - 1 = 1 by ring, abs_one, Real.one_rpow, Real.sign_one]
  ring

theorem linspace01_head (n : ℕ) (h : 1 ≤ n) : (linspace01 n).head? = some 0 := by
  cases n with
  | zero => omega
  | succ m =>
    unfold linspace01
    rw [List.head?_map, List.range_succ_eq_map]
    simp

theorem linspace01_getLast (n : ℕ) (h : 2 ≤ n) : (linspace01 n).getLast? = some 1 := by
  obtain ⟨m, rfl⟩ : ∃ m, n = m + 2 := ⟨n - 2, by omega⟩
  unfold linspace01
  rw [List.getLast?_map, List.range_succ, List.getLast?_concat]
  rw [Option.map_some', Option.some_inj]
  push_cast
  rw [show ((m:ℚ) + 2 - 1) = m + 1 by ring]
  exact div_self (by positivity)

theorem linspace01_mem (n : ℕ) (a : ℚ) (ha : a ∈ linspace01 n) : 0 ≤ a ∧ a ≤ 1 := by
  unfold linspace01 at ha
  obtain ⟨i, hi, rfl⟩ := List.mem_map.mp ha
  rw [List.mem_range] at hi
  rcases le_or_lt n 1 with h1 | h2
  · interval_cases n
    · omega
    · interval_cases i
      norm_num
  · have hd : (0:ℚ) < (n:ℚ) - 1 := by
      have h2' : (2:ℚ) ≤ (n:ℚ) := by exact_mod_cast h2
      linarith
    constructor
    · positivity
    · rw [div_le_one hd]
      have hi' : (i:ℚ) + 1 ≤ (n:ℚ) := by exact_mod_cast hi
      linarith

theorem powerScale_bound (p a : ℝ) (hp : 0 ≤ p) (h0 : 0 ≤ a) (h1 : a ≤ 1) :
    0 ≤ powerScale p a ∧ powerScale p a ≤ 1 := by
  unfold powerScale
  set s := a * 2 - 1 with hs
  have habs : |s| ≤ 1 := by
    rw [abs_le]
    constructor <;> simp only [hs] <;> linarith
  have hb0 : 0 ≤ |s| ^ p := Real.rpow_nonneg (abs_nonneg s) p
  have hb1 : |s| ^ p ≤ 1 := Real.rpow_le_one (abs_nonneg s) habs hp
  have hsign : |Real.sign s| ≤ 1 := by
    rcases Real.sign_apply_eq s with h | h | h <;> rw [h] <;> norm_num
  have hprod : |(|s| ^ p * Real.sign s)| ≤ 1 := by
    rw [abs_mul, abs_of_nonneg hb0]
    calc |s| ^ p * |Real.sign s| ≤ 1 * 1 :=
          mul_le_mul hb1 hsign (abs_nonneg _) zero_le_one
    _ = 1 := by norm_num
  rw [abs_le] at hprod
  obtain ⟨hl, hr⟩ := hprod
  constructor <;> linarith

theorem foldl_segAppend_eq_flatten (s : AudioSeg) (rest : List AudioSeg) :
    rest.foldl (fun acc seg => segAppend acc seg) s = s ++ rest.flatten := by
  induction rest generalizing s with
  | nil => simp
  | cons x xs ih =>
    rw [List.foldl_cons, ih]
    simp [segAppend, List.append_assoc]

theorem prepare_ok_of_resolve (engine : Engine) (cuda : Bool) (ext : String) (n ni : ℕ)
    (g : ℚ) (nm : String) (file : Option ImgVal) (p : ℝ) (sio si : Bool)
    (pa0 pb0 : PromptInput) (img : ImgVal) (hn : 1 ≤ n)
    (himg : resolve_init_image nm file = .ok img) :
    ∃ reqs buf,
      prepare_interpolation engine cuda ext n ni g nm file p sio si (some pa0) (some pb0)
        = .ok (reqs, buf) ∧ reqs.length = n := by
  have hlen : (prepare_alpha_schedule n p).length = n := prepare_alpha_schedule_length n p
  obtain ⟨a, as, hL⟩ : ∃ a as, prepare_alpha_schedule n p = a :: as := by
    cases hc : prepare_alpha_schedule n p with
    | nil => rw [hc] at hlen; simp at hlen; omega
    | cons a as => exact ⟨a, as, rfl⟩
  unfold prepare_interpolation
  rw [himg, hL]
  simp only [List.map_cons, prepare_concat_export, audioSegment_from_file]
  refine ⟨_, _, rfl, ?_⟩
  have : ((a :: as).map (fun alpha =>
      ({ alpha := alpha, num_inference_steps := ni, seed_image_id := "og_beat",
         start := pa0, «end» := pb0 } : InferenceInput))).length = (a :: as).length :=
    List.length_map _ _
  rw [List.map_cons] at this
  rw [this, ← hL, hlen]

theorem map_audioSegment_from_file (l : List AudioSeg) :
    l.map audioSegment_from_file = l := by
  induction l with
  | nil => rfl
  | cons b bs ih => rw [List.map_cons, ih, audioSegment_from_file]

theorem prepare_ok_inversion (engine : Engine) (cuda : Bool) (ext : String) (n ni : ℕ)
    (g : ℚ) (nm : String) (file : Option ImgVal) (p : ℝ) (sio si : Bool)
    (pa pb : Option PromptInput) (reqs : List InferenceInput) (buf : ByteBuf)
    (h : prepare_interpolation engine cuda ext n ni g nm file p sio si pa pb
      = .ok (reqs, buf)) :
    ∃ pa0 pb0 img,
      pa = some pa0 ∧ pb = some pb0 ∧
      resolve_init_image nm file = .ok img ∧
      reqs = (prepare_alpha_schedule n p).map (fun alpha =>
        ({ alpha := alpha, num_inference_steps := ni, seed_image_id := "og_beat",
           start := pa0, «end» := pb0 } : InferenceInput)) ∧
      buf.format = ext ∧ buf.pos = 0 ∧
      buf.samples = (reqs.map (fun r =>
        (engine r img (if cuda then "cuda" else "cpu") ext).2)).flatten := by
  unfold prepare_interpolation at h
  cases pa with
  | none => exact absurd h (by simp)
  | some pa0 =>
  cases pb with
  | none => exact absurd h (by simp)
  | some pb0 =>
  dsimp only at h
  cases hres : resolve_init_image nm file with
  | error e => rw [hres] at h; exact absurd h (by simp)
  | ok img =>
  rw [hres] at h
  dsimp only at h
  cases hc : prepare_concat_export ext
      (((prepare_alpha_schedule n p).map (fun alpha =>
        ({ alpha := alpha, num_inference_steps := ni, seed_image_id := "og_beat",
           start := pa0, «end» := pb0 } : InferenceInput))).map
        (fun inputs => (engine inputs img (if cuda then "cuda" else "cpu") ext).2)) with
  | error e => rw [hc] at h; exact absurd h (by simp)
  | ok buf0 =>
  rw [hc] at h
  dsimp only at h
  injection h with h'
  injection h' with hreqs hbuf
  subst hreqs
  subst hbuf
  refine ⟨pa0, pb0, img, rfl, rfl, rfl, rfl, ?_⟩
  unfold prepare_concat_export at hc
  dsimp only at hc
  rw [map_audioSegment_from_file] at hc
  cases hal : ((prepare_alpha_schedule n p).map (fun alpha =>
      ({ alpha := alpha, num_inference_steps := ni, seed_image_id := "og_beat",
         start := pa0, «end» := pb0 } : InferenceInput))).map
      (fun inputs => (engine inputs img (if cuda then "cuda" else "cpu") ext).2) with
  | nil => rw [hal] at hc; exact absurd hc (by simp)
  | cons b bs =>
  rw [hal] at hc
  dsimp only at hc
  injection hc with hc'
  rw [← hc']
  dsimp only
  refine ⟨rfl, rfl, ?_⟩
  rw [foldl_segAppend_eq_flatten, List.flatten_cons]

theorem prepare_eval_one (nm : String) (file : Option ImgVal) (img : ImgVal)
    (himg : resolve_init_image nm file = .ok img) (pa0 pb0 : PromptInput) :
    prepare_interpolation engineW false "mp3" 1 50 7 nm file 1 false false
        (some pa0) (some pb0)
      = .ok ([⟨0, 50, "og_beat", pa0, pb0⟩], ⟨"mp3", [1, 2], 0⟩) := by
  have hsched : prepare_alpha_schedule 1 1 = [0] := by
    rw [prepare_alpha_schedule_one]
    unfold linspace01R linspace01
    norm_num [List.range_succ]
  unfold prepare_interpolation
  rw [himg, hsched]
  dsimp only [List.map_cons, List.map_nil]
  simp [prepare_concat_export, audioSegment_from_file, engineW, segAppend]

/-- C1: with curveExponent = 1.0 the power warp is the identity, so for every stepCount
in [1,20] the schedule generator returns exactly the evenly spaced linear sequence from 0
to 1; in particular for stepCount = 3 it produces [0.0, 0.5, 1.0] in that order. -/
theorem claim_C1 (n : ℕ) (h1 : 1 ≤ n) (h20 : n ≤ 20) :
    prepare_alpha_schedule n 1 = linspace01R n ∧
    prepare_alpha_schedule 3 1 = [0, 1/2, 1] := by
  refine ⟨prepare_alpha_schedule_one n, ?_⟩
  rw [prepare_alpha_schedule_one]
  unfold linspace01R
  rw [linspace01_three]
  norm_num

/-- C1 witness at stepCount = 3. -/
theorem claim_C1_witness :
    1 ≤ 3 ∧ 3 ≤ 20 ∧
      (prepare_alpha_schedule 3 1 = linspace01R 3 ∧
       prepare_alpha_schedule 3 1 = [0, 1/2, 1]) :=
  ⟨by norm_num, by norm_num, claim_C1 3 (by norm_num) (by norm_num)⟩

/-- C2 (amended): for every stepCount in [2,20] and every curveExponent > 0 the first
coefficient is 0 and the last is 1; for stepCount = 1 the single coefficient is 0, so
the original claim fails there. -/
theorem claim_C2 (n : ℕ) (p : ℝ) (hp : 0 < p) (h2 : 2 ≤ n) (h20 : n ≤ 20) :
    (prepare_alpha_schedule n p).head? = some 0 ∧
    (prepare_alpha_schedule n p).getLast? = some 1 := by
  unfold prepare_alpha_schedule
  rw [List.head?_map, List.getLast?_map]
  rw [linspace01_head n (by omega), linspace01_getLast n h2]
  constructor
  · simp [powerScale_zero]
  · simp [powerScale_right_one]

/-- C2 witness at stepCount = 5, curveExponent = 2. -/
theorem claim_C2_witness :
    (0:ℝ) < 2 ∧ 2 ≤ 5 ∧ 5 ≤ 20 ∧
      ((prepare_alpha_schedule 5 2).head? = some 0 ∧
       (prepare_alpha_schedule 5 2).getLast? = some 1) :=
  ⟨by norm_num, by norm_num, by norm_num,
   claim_C2 5 2 (by norm_num) (by norm_num) (by norm_num)⟩

/-- C2 counterexample: at stepCount = 1 (inside [1,20]) with curveExponent = 2 (> 0) the
schedule is [0], so its last coefficient is 0, not 1. -/
theorem claim_C2_counterexample :
    (prepare_alpha_schedule 1 2).getLast? = some 0 ∧ (0:ℝ) ≠ 1 := by
  have hsched : prepare_alpha_schedule 1 2 = [powerScale 2 0] := by
    unfold prepare_alpha_schedule linspace01
    norm_num [List.range_succ]
  rw [hsched, powerScale_zero]
  exact ⟨rfl, by norm_num⟩

/-- C7: for every stepCount in [1,20] and every curveExponent > 0, every coefficient of
the schedule lies in the closed interval [0,1]. -/
theorem claim_C7 (n : ℕ) (p : ℝ) (hp : 0 < p) (h1 : 1 ≤ n) (h20 : n ≤ 20) :
    ∀ x ∈ prepare_alpha_schedule n p, 0 ≤ x ∧ x ≤ 1 := by
  intro x hx
  unfold prepare_alpha_schedule at hx
  obtain ⟨a, ha, rfl⟩ := List.mem_map.mp hx
  obtain ⟨ha0, ha1⟩ := linspace01_mem n a ha
  exact powerScale_bound p a hp.le (by exact_mod_cast ha0) (by exact_mod_cast ha1)

/-- C7 witness: the middle coefficient of the schedule for stepCount = 3, exponent = 2
is 1/2, and it lies in [0,1]. -/
theorem claim_C7_witness : (0:ℝ) ≤ 1/2 ∧ (1/2:ℝ) ≤ 1 := by
  have hval : powerScale 2 (((1/2 : ℚ) : ℝ)) = 1/2 := by
    unfold powerScale
    rw [show ((1/2:ℚ):ℝ) * 2 - 1 = 0 by push_cast; ring, Real.sign_zero]
    ring
  have hmem : (1/2 : ℝ) ∈ prepare_alpha_schedule 3 2 := by
    unfold prepare_alpha_schedule
    refine List.mem_map.mpr ⟨1/2, ?_, hval⟩
    rw [linspace01_three]
    norm_num
  exact claim_C7 3 2 (by norm_num) (by norm_num) (by norm_num) (1/2) hmem

/-- C8: the memoized run_interpolation is deterministic and memoizing — two successive
calls with identical arguments return the same result, and the second call leaves the
cache state (in particular the count of underlying computations) unchanged, i.e. does
not recompute. -/
theorem claim_C8 {κ ρ : Type} [DecidableEq κ] (compute : κ → ρ)
    (s : MemoState κ ρ) (k : κ) :
    (run_interpolation_memo compute ((run_interpolation_memo compute s k).2) k).1
      = (run_interpolation_memo compute s k).1
  ∧ (run_interpolation_memo compute ((run_interpolation_memo compute s k).2) k).2
      = (run_interpolation_memo compute s k).2 := by
  cases h : memoFind s.entries k with
  | some v => simp [run_interpolation_memo, h]
  | none => simp [run_interpolation_memo, h, memoFind]

/-- C9: the alpha-schedule computation and the zero-crossfade concatenation logic
duplicated in render and prepare_interpolation are extensionally equal. -/
theorem claim_C9 :
    (∀ (n : ℕ) (p : ℝ), render_alpha_schedule n p = prepare_alpha_schedule n p) ∧
    (∀ (ext : String) (l : List AudioSeg),
      render_concat_export ext l = prepare_concat_export ext l) :=
  ⟨fun _ _ => rfl, fun _ _ => rfl⟩

/-- C3: every InferenceInput built in a successful prepare_interpolation run carries
seedImageId = "og_beat", independently of the selected seed image (including a custom
uploaded one), for every coefficient in schedule order. -/
theorem claim_C3 (engine : Engine) (cuda : Bool) (ext : String) (n ni : ℕ) (g : ℚ)
    (nm : String) (file : Option ImgVal) (p : ℝ) (sio si : Bool)
    (pa pb : Option PromptInput) (reqs : List InferenceInput) (buf : ByteBuf)
    (h : prepare_interpolation engine cuda ext n ni g nm file p sio si pa pb
      = .ok (reqs, buf)) :
    ∀ r ∈ reqs, r.seed_image_id = "og_beat" := by
  obtain ⟨pa0, pb0, img, -, -, -, hreqs, -⟩ :=
    prepare_ok_inversion engine cuda ext n ni g nm file p sio si pa pb reqs buf h
  intro r hr
  rw [hreqs] at hr
  obtain ⟨alpha, -, rfl⟩ := List.mem_map.mp hr
  rfl

/-- C3 witness: a run with a custom uploaded seed image still stamps "og_beat" on its
request. -/
theorem claim_C3_witness :
    (InferenceInput.mk 0 50 "og_beat" paW pbW).seed_image_id = "og_beat" := by
  have h : prepare_interpolation engineW false "mp3" 1 50 7 "custom"
      (some (ImgVal.pilImage "up")) 1 false false (some paW) (some pbW)
      = .ok ([⟨0, 50, "og_beat", paW, pbW⟩], ⟨"mp3", [1, 2], 0⟩) :=
    prepare_eval_one "custom" (some (ImgVal.pilImage "up")) (ImgVal.pilImage "up")
      (by unfold resolve_init_image; simp [pyConvertRGB]) paW pbW
  exact claim_C3 engineW false "mp3" 1 50 7 "custom" (some (ImgVal.pilImage "up")) 1
    false false (some paW) (some pbW) _ _ h ⟨0, 50, "og_beat", paW, pbW⟩
    (List.mem_singleton.mpr rfl)

/-- C4 (amended): prepare_interpolation raises the missing-prompt ValueError exactly when
a prompt argument is None — a provided prompt whose text is blank is not rejected — and
raises the missing-seed-image ValueError when "custom" is selected with no buffer; both
errors are independent of the engine, so no inference call is made first. -/
theorem claim_C4 (engine : Engine) (cuda : Bool) (ext : String) (n ni : ℕ) (g : ℚ)
    (nm : String) (file : Option ImgVal) (p : ℝ) (sio si : Bool)
    (pa pb : Option PromptInput) (pa0 pb0 : PromptInput) :
    (pa = none ∨ pb = none →
      prepare_interpolation engine cuda ext n ni g nm file p sio si pa pb
        = .error .missingPrompt) ∧
    prepare_interpolation engine cuda ext n ni g "custom" none p sio si
        (some pa0) (some pb0)
      = .error .missingSeedImage := by
  constructor
  · rintro (rfl | rfl)
    · cases pb <;> rfl
    · cases pa <;> rfl
  · unfold prepare_interpolation
    rw [show resolve_init_image "custom" none = .error .missingSeedImage from by
      unfold resolve_init_image; simp]

/-- C4 witness: a None prompt A and a custom selection without buffer each produce their
error. -/
theorem claim_C4_witness :
    prepare_interpolation engineW false "mp3" 2 50 7 "og_beat" none 1 false false
        none (some pbW) = .error .missingPrompt ∧
    prepare_interpolation engineW false "mp3" 2 50 7 "custom" none 1 false false
        (some paW) (some pbW) = .error .missingSeedImage :=
  ⟨(claim_C4 engineW false "mp3" 2 50 7 "og_beat" none 1 false false none (some pbW)
      paW pbW).1 (Or.inl rfl),
   (claim_C4 engineW false "mp3" 2 50 7 "custom" none 1 false false (some paW)
      (some pbW) paW pbW).2⟩

/-- C4 counterexample: with prompt A provided but blank ("") the code does not raise —
the run succeeds and one inference request is issued, contradicting the claim that a
blank prompt raises MissingPromptError before any engine call. -/
theorem claim_C4_counterexample :
    prepare_interpolation engineW false "mp3" 1 50 7 "og_beat" none 1 false false
        (some blankW) (some pbW)
      = .ok ([⟨0, 50, "og_beat", blankW, pbW⟩], ⟨"mp3", [1, 2], 0⟩) ∧
    blankW.prompt = "" :=
  ⟨prepare_eval_one "og_beat" none (ImgVal.pilImage "og_beat")
      (by unfold resolve_init_image; simp) blankW pbW, rfl⟩

/-- C5 (amended): prepare_interpolation performs no schedule-configuration validation:
for every stepCount ≥ 1 and every curveExponent — including exponents ≤ 0, and stepCounts
outside [1,20] — no error is raised (no InvalidScheduleConfig error exists in the code)
and exactly stepCount inference requests are issued. -/
theorem claim_C5 (engine : Engine) (cuda : Bool) (ext : String) (n ni : ℕ) (g : ℚ)
    (p : ℝ) (sio si : Bool) (pa0 pb0 : PromptInput) (hn : 1 ≤ n) :
    ∃ reqs buf,
      prepare_interpolation engine cuda ext n ni g "og_beat" none p sio si
          (some pa0) (some pb0)
        = .ok (reqs, buf) ∧ reqs.length = n :=
  prepare_ok_of_resolve engine cuda ext n ni g "og_beat" none p sio si pa0 pb0
    (ImgVal.pilImage "og_beat") hn (by unfold resolve_init_image; simp)

/-- C5 witness at stepCount = 21 (outside [1,20]) and curveExponent = 0 (not > 0): the
run succeeds with 21 requests. -/
theorem claim_C5_witness :
    1 ≤ 21 ∧
    ∃ reqs buf,
      prepare_interpolation engineW false "mp3" 21 50 7 "og_beat" none 0 false false
          (some paW) (some pbW)
        = .ok (reqs, buf) ∧ reqs.length = 21 :=
  ⟨by norm_num,
   claim_C5 engineW false "mp3" 21 50 7 0 false false paW pbW (by norm_num)⟩

/-- C5 counterexample: at stepCount = 21 and curveExponent = 0 the orchestrator raises no
error at all (the claimed InvalidScheduleConfig is never raised; there is no such error
in the code). -/
theorem claim_C5_counterexample :
    (prepare_interpolation engineW false "mp3" 21 50 7 "og_beat" none 0 false false
        (some paW) (some pbW)).isOk = true := by
  obtain ⟨reqs, buf, h, -⟩ := prepare_ok_of_resolve engineW false "mp3" 21 50 7 "og_beat"
    none 0 false false paW pbW (ImgVal.pilImage "og_beat") (by norm_num)
    (by unfold resolve_init_image; simp)
  rw [h]
  rfl

/-- C6: the final buffer of a successful run is the hard zero-crossfade concatenation of
the per-step audio segments in schedule order (never reordered), its duration is the sum
of the per-step durations, and the buffer is positioned at its start in the run's
container format. -/
theorem claim_C6 (engine : Engine) (cuda : Bool) (ext : String) (n ni : ℕ) (g : ℚ)
    (nm : String) (file : Option ImgVal) (p : ℝ) (sio si : Bool)
    (pa pb : Option PromptInput) (reqs : List InferenceInput) (buf : ByteBuf)
    (h : prepare_interpolation engine cuda ext n ni g nm file p sio si pa pb
      = .ok (reqs, buf)) :
    ∃ img,
      buf.samples = (reqs.map (fun r =>
        (engine r img (if cuda then "cuda" else "cpu") ext).2)).flatten ∧
      segDuration buf.samples = (reqs.map (fun r =>
        segDuration (engine r img (if cuda then "cuda" else "cpu") ext).2)).sum ∧
      buf.pos = 0 ∧ buf.format = ext := by
  obtain ⟨pa0, pb0, img, -, -, -, -, hfmt, hpos, hsamp⟩ :=
    prepare_ok_inversion engine cuda ext n ni g nm file p sio si pa pb reqs buf h
  refine ⟨img, hsamp, ?_, hpos, hfmt⟩
  rw [hsamp]
  unfold segDuration
  rw [List.length_flatten, List.map_map]
  rfl

/-- C6 witness: a concrete one-step run; the two-sample output equals the single
segment, with duration 2 and position 0. -/
theorem claim_C6_witness :
    ∃ img,
      (ByteBuf.mk "mp3" [1, 2] 0).samples
        = (([(⟨0, 50, "og_beat", paW, pbW⟩ : InferenceInput)]).map (fun r =>
            (engineW r img (if false then "cuda" else "cpu") "mp3").2)).flatten ∧
      segDuration (ByteBuf.mk "mp3" [1, 2] 0).samples
        = (([(⟨0, 50, "og_beat", paW, pbW⟩ : InferenceInput)]).map (fun r =>
            segDuration (engineW r img (if false then "cuda" else "cpu") "mp3").2)).sum ∧
      (ByteBuf.mk "mp3" [1, 2] 0).pos = 0 ∧ (ByteBuf.mk "mp3" [1, 2] 0).format = "mp3" := by
  have h : prepare_interpolation engineW false "mp3" 1 50 7 "og_beat" none 1 false false
      (some paW) (some pbW)
      = .ok ([⟨0, 50, "og_beat", paW, pbW⟩], ⟨"mp3", [1, 2], 0⟩) :=
    prepare_eval_one "og_beat" none (ImgVal.pilImage "og_beat")
      (by unfold resolve_init_image; simp) paW pbW
  exact claim_C6 engineW false "mp3" 1 50 7 "og_beat" none 1 false false
    (some paW) (some pbW) _ _ h

/-- C10: with init_image_name = "custom" and a raw io.BytesIO buffer of the declared
parameter type, prepare_interpolation calls .convert("RGB") directly on the buffer
(no Image.open), so the custom branch fails with an AttributeError for every such input;
it succeeds when an already-decoded PIL image is passed instead. -/
theorem claim_C10 (engine : Engine) (cuda : Bool) (ext : String) (n ni : ℕ) (g : ℚ)
    (p : ℝ) (sio si : Bool) (pa0 pb0 : PromptInput) (tag : String) :
    prepare_interpolation engine cuda ext n ni g "custom" (some (ImgVal.bytesBuf tag))
        p sio si (some pa0) (some pb0) = .error .attrError ∧
    (1 ≤ n → ∃ reqs buf,
      prepare_interpolation engine cuda ext n ni g "custom" (some (ImgVal.pilImage tag))
          p sio si (some pa0) (some pb0) = .ok (reqs, buf)) := by
  constructor
  · unfold prepare_interpolation
    rw [show resolve_init_image "custom" (some (ImgVal.bytesBuf tag)) = .error .attrError
      from by unfold resolve_init_image; simp [pyConvertRGB]]
  · intro hn
    obtain ⟨reqs, buf, h, -⟩ := prepare_ok_of_resolve engine cuda ext n ni g "custom"
      (some (ImgVal.pilImage tag)) p sio si pa0 pb0 (ImgVal.pilImage tag) hn
      (by unfold resolve_init_image; simp [pyConvertRGB])
    exact ⟨reqs, buf, h⟩

/-- C10 witness: one concrete custom upload each way. -/
theorem claim_C10_witness :
    prepare_interpolation engineW false "mp3" 1 50 7 "custom"
        (some (ImgVal.bytesBuf "up")) 1 false false (some paW) (some pbW)
      = .error .attrError ∧
    (∃ reqs buf,
      prepare_interpolation engineW false "mp3" 1 50 7 "custom"
          (some (ImgVal.pilImage "up")) 1 false false (some paW) (some pbW)
        = .ok (reqs, buf)) :=
  ⟨(claim_C10 engineW false "mp3" 1 50 7 1 false false paW pbW "up").1,
   (claim_C10 engineW false "mp3" 1 50 7 1 false false paW pbW "up").2 (by norm_num)⟩

end Riffusion
